import Mathlib

/-!
Verification development for the slowpty relay program.

The program runs a child attached to a pseudo-terminal and relays bytes
between the real console (fd 0) and the pty master at a limited rate.
This file gives a shallow embedding of the pieces of the program that the
verified properties speak about:

* `src/term.rs` — the raw-mode terminal lifecycle (`save_term_settings`,
  `set_raw`, `reset_tty`);
* `src/readable.rs` — readiness multiplexing (`ReadableSet::block`,
  `ReadableSet::unset`);
* `src/main.rs` — the relay event loop (`event_loop`), the wait-status
  translation at the end of `main`, and `signal_name`;
* `src/delay.rs` — the rate-limiter delay (`Delay::from_rate`,
  `Delay::from_nanos`, `Delay::sleep`).

OS calls are modelled by their visible effects: reads from a file
descriptor become a list of read outcomes consumed in order, writes are
recorded as the list of buffers passed to `write_all`, `nanosleep` becomes
a list of outcomes supplied by the environment, and `tcsetattr` calls are
recorded as the list of attribute values applied.  Machine integers are
modelled by `Nat`/`Int`; the one place where the width matters
(`f64 as i32` in `Delay::from_rate`) carries an explicit saturating
truncation.  `f64` values are modelled by exact rationals; all concrete
inputs used below are exactly representable in `f64`, so the model and the
machine arithmetic agree on them.
-/

namespace SlowPty

/-! ### Terminal lifecycle (src/term.rs) -/

/-- Model of a `libc::termios` attribute snapshot.  The program never
inspects the fields itself; it only copies snapshots around and feeds them
to `cfmakeraw`/`tcsetattr`.  We keep an opaque `base` tag plus a `raw`
flag that `cfmakeraw` sets. -/
structure Termios where
  base : Nat
  raw : Bool
deriving DecidableEq, Repr

/-- The zero-initialized static buffer `ORIGINAL_TERM_SETTINGS` before any
`tcgetattr` has written to it. -/
def zeroTermios : Termios := { base := 0, raw := false }

/-- Model of `libc::cfmakeraw`: transforms a settings snapshot into its
raw-mode variant. -/
def cfmakeraw (t : Termios) : Termios := { t with raw := true }

/-- The process-wide mutable state of `src/term.rs`: the static snapshot
buffer `ORIGINAL_TERM_SETTINGS` and the `TERM_RESET` flag. -/
structure TermState where
  originalTermSettings : Termios
  termReset : Bool
deriving DecidableEq, Repr

/-- Process start: zeroed snapshot buffer, `TERM_RESET = false`. -/
def initialTermState : TermState := { originalTermSettings := zeroTermios, termReset := false }

/-- `save_term_settings(fd)` (src/term.rs:39-48): `tcgetattr` writes the
terminal's current attributes `current` into the static buffer.  The
window-size `ioctl` probe and the error path of `tcgetattr` do not touch
the state and are outside this model. -/
def save_term_settings (current : Termios) (s : TermState) : TermState :=
  { s with originalTermSettings := current }

/-- `reset_tty()` (src/term.rs:17-29).  Returns the new state, the list of
`tcsetattr(0, TCSANOW, _)` calls performed (at most one), and whether the
process aborted (`libc::abort`, taken only when a performed `tcsetattr`
call fails, which `setattrFails` simulates). -/
def reset_tty (setattrFails : Bool) (s : TermState) : TermState × List Termios × Bool :=
  if s.termReset then (s, [], false)
  else ({ s with termReset := true }, [s.originalTermSettings], setattrFails)

/-- Runs `reset_tty` `n` times in sequence (with `tcsetattr` succeeding),
accumulating the attribute-set calls and whether any run aborted. -/
def resetIter : Nat → TermState → TermState × List Termios × Bool
  | 0, s => (s, [], false)
  | n + 1, s =>
      let r1 := reset_tty false s
      let r2 := resetIter n r1.1
      (r2.1, r1.2.1 ++ r2.2.1, r1.2.2 || r2.2.2)

/-- Possible results of `set_raw`.  The source function only ever applies
attributes; the `orderViolation` constructor exists so that the spec's
claimed call-order failure is expressible. -/
inductive SetRawResult
  | applied (attrs : Termios)
  | orderViolation
deriving DecidableEq, Repr

/-- `set_raw(fd)` (src/term.rs:31-37): clones the static snapshot buffer,
applies `cfmakeraw` to the copy, and hands the result to
`tcsetattr(fd, TCSAFLUSH, _)`.  There is no check that settings were ever
saved.  The `tcsetattr` OS error path is orthogonal and outside the
model; the value reports which attributes get applied. -/
def set_raw (s : TermState) : SetRawResult :=
  SetRawResult.applied (cfmakeraw s.originalTermSettings)

/-- Modelled from the spec: §4.2 `setRaw(fd)` is described as failing with
a call-order violation when settings were never saved, and otherwise
applying raw-mode attributes derived from the saved snapshot.  Stated over
an optional saved snapshot, as the spec's §9 redesign note prescribes. -/
def setRawSpecVersion (saved : Option Termios) : SetRawResult :=
  match saved with
  | none => SetRawResult.orderViolation
  | some t => SetRawResult.applied (cfmakeraw t)

/-! ### Readiness multiplexing (src/readable.rs) -/

/-- A readiness event reported by one `mio` poll.  Only tokens 0 (console)
and 1 (pty master) are ever registered (`ReadableSet::new`), so the token
is a `Fin 2`. -/
structure MioEvent where
  token : Fin 2
  isReadable : Bool
  isReadClosed : Bool
deriving DecidableEq, Repr

/-- Result type of `ReadableSet::block`. -/
inductive PollResult
  | ok
  | closed
deriving DecidableEq, Repr

/-- The terminal-condition test of `ReadableSet::block`
(src/readable.rs:88): the event signals read-closed and is not
readable. -/
def eventTerminal (e : MioEvent) : Bool := e.isReadClosed && !e.isReadable

/-- The event-processing part of `ReadableSet::block`
(src/readable.rs:79-99).  `bits` is the current `self.bits`; the events
delivered by `poll` are consumed in order.  A read-closed-and-not-readable
event returns `Closed` immediately (leaving `self.bits` as mutated so
far); otherwise the event's readiness bit `(1 << token) as u8` is OR-ed in
and processing continues; with no terminal event the result is `Ok`. -/
def blockProcess : Nat → List MioEvent → Nat × PollResult
  | bits, [] => (bits, PollResult.ok)
  | bits, e :: rest =>
      if eventTerminal e then (bits, PollResult.closed)
      else blockProcess (bits ||| (1 <<< e.token.val)) rest

/-- `ReadableSet::unset(index)` (src/readable.rs:117-120):
`bits &= !((1 << index) as u8)`, with the `u8` complement written out. -/
def unsetBit (bits : Nat) (idx : Nat) : Nat := bits &&& (255 ^^^ (1 <<< idx))

/-! ### The relay event loop (src/main.rs, `event_loop`) -/

/-- Outcome of a single non-blocking `read` of a 1-byte buffer, as the
match in `event_loop` (src/main.rs:224-267) distinguishes them: `Ok(0)`,
`Ok(1)` with the byte read, `Err(WouldBlock)`, `Err` with raw OS error
`EIO`, and any other `Err` (carrying its OS error code). -/
inductive ReadResult
  | zero
  | one (b : Nat)
  | wouldBlock
  | errEio
  | errOther (e : Nat)
deriving DecidableEq, Repr

/-- What processing one endpoint inside the `for idx in 0..=1` loop does
to the control flow: relayed a byte (or byte pair) and moved on, pushed
the index onto the `unset` list, returned `Ok(())` ending the session, or
panicked with a fatal read error. -/
inductive EndpointOutcome
  | relayed
  | markUnset
  | endSession
  | fatal (e : Nat)
deriving DecidableEq, Repr

/-- One endpoint's pass in the body of `event_loop` (src/main.rs:219-267).
The endpoint's source is a list of pending read outcomes, consumed one per
`read` call (an exhausted list behaves as would-block: the fd is
non-blocking and nothing is available).  Returns the outcome, the list of
buffers passed to `dst.write_all`, and the remaining source.
`Ok(0)` and `EIO` return `Ok(())` (session end); `WouldBlock` records the
index for `unset`; any other read error panics.  A read byte equal to
`0x1B` triggers one optimistic extra read: only an immediate `Ok(1)`
produces a single 2-byte write; every other second-read outcome is
discarded and the lone escape byte is written on its own. -/
def processEndpoint : List ReadResult → EndpointOutcome × List (List Nat) × List ReadResult
  | [] => (EndpointOutcome.markUnset, [], [])
  | r :: rest =>
      match r with
      | ReadResult.zero => (EndpointOutcome.endSession, [], rest)
      | ReadResult.one b =>
          if b == 0x1B then
            match rest with
            | ReadResult.one b2 :: rest2 => (EndpointOutcome.relayed, [[b, b2]], rest2)
            | _ :: rest2 => (EndpointOutcome.relayed, [[b]], rest2)
            | [] => (EndpointOutcome.relayed, [[b]], [])
          else (EndpointOutcome.relayed, [[b]], rest)
      | ReadResult.wouldBlock => (EndpointOutcome.markUnset, [], rest)
      | ReadResult.errEio => (EndpointOutcome.endSession, [], rest)
      | ReadResult.errOther e => (EndpointOutcome.fatal e, [], rest)

/-- How one outer iteration of `event_loop` ends: falls through to the
next iteration, returns `Ok(())` (clean session end), or dies with a
fatal read error. -/
inductive IterOutcome
  | next
  | ended
  | failed (e : Nat)
deriving DecidableEq, Repr

/-- Observable effects of one outer iteration of `event_loop`:
how it ended, how many `delay.sleep()` calls it performed, the
`write_all` buffers sent to each destination (`writes0` to the pty for
endpoint 0, `writes1` to the console for endpoint 1), the readiness bits
after the `unset` pass, and both sources' remaining read outcomes. -/
structure IterResult where
  outcome : IterOutcome
  sleeps : Nat
  writes0 : List (List Nat)
  writes1 : List (List Nat)
  bits : Nat
  src0 : List ReadResult
  src1 : List ReadResult
deriving DecidableEq, Repr

/-- The body of one outer iteration of `event_loop` (src/main.rs:218-277),
starting from the point where at least one endpoint is known readable:
process endpoint 0 then endpoint 1 (a session end or fatal error returns
immediately, skipping the rest), then clear the readiness bits collected
in `unset`, then perform exactly one `delay.sleep()`. -/
def relayIteration (bits : Nat) (src0 src1 : List ReadResult) : IterResult :=
  match processEndpoint src0 with
  | (EndpointOutcome.endSession, w0, rest0) =>
      ⟨IterOutcome.ended, 0, w0, [], bits, rest0, src1⟩
  | (EndpointOutcome.fatal e, w0, rest0) =>
      ⟨IterOutcome.failed e, 0, w0, [], bits, rest0, src1⟩
  | (o0, w0, rest0) =>
      match processEndpoint src1 with
      | (EndpointOutcome.endSession, w1, rest1) =>
          ⟨IterOutcome.ended, 0, w0, w1, bits, rest0, rest1⟩
      | (EndpointOutcome.fatal e, w1, rest1) =>
          ⟨IterOutcome.failed e, 0, w0, w1, bits, rest0, rest1⟩
      | (o1, w1, rest1) =>
          let bits1 := match o0 with
            | EndpointOutcome.markUnset => unsetBit bits 0
            | _ => bits
          let bits2 := match o1 with
            | EndpointOutcome.markUnset => unsetBit bits1 1
            | _ => bits1
          ⟨IterOutcome.next, 1, w0, w1, bits2, rest0, rest1⟩

/-! ### Rate-limiter delay (src/delay.rs) -/

/-- `SEC_NS` (src/delay.rs:5). -/
def SEC_NS : Int := 1000000000

/-- Model of `libc::timespec`. -/
structure Timespec where
  tv_sec : Int
  tv_nsec : Int
deriving DecidableEq, Repr

/-- Model of `Delay` (src/delay.rs:7-9). -/
structure Delay where
  ts : Timespec
deriving DecidableEq, Repr

/-- Truncation of a rational toward zero, the rounding of Rust's
float-to-integer `as` cast. -/
def ratTrunc (x : ℚ) : Int := if 0 ≤ x then ⌊x⌋ else ⌈x⌉

/-- `i32::MAX`. -/
def i32Max : Int := 2147483647

/-- `i32::MIN`. -/
def i32Min : Int := -2147483648

/-- Rust `f64 as i32`: truncate toward zero, saturating at the `i32`
bounds.  The `f64` value is modelled as an exact rational. -/
def f64AsI32 (x : ℚ) : Int := min i32Max (max i32Min (ratTrunc x))

/-- `Delay::from_nanos` (src/delay.rs:17-24): `tv_sec = nanos / SEC_NS`,
`tv_nsec = nanos % SEC_NS` with Rust's truncating `i32` division and
remainder (`Int.tdiv`/`Int.tmod`). -/
def from_nanos (nanos : Int) : Delay :=
  ⟨⟨Int.tdiv nanos SEC_NS, Int.tmod nanos SEC_NS⟩⟩

/-- `Delay::from_rate` (src/delay.rs:12-15):
`from_nanos((f64::from(SEC_NS) / rate) as i32)`. -/
def from_rate (rate : ℚ) : Delay := from_nanos (f64AsI32 ((SEC_NS : ℚ) / rate))

/-- Total duration of a delay in nanoseconds. -/
def delayNanos (d : Delay) : Int := d.ts.tv_sec * SEC_NS + d.ts.tv_nsec

/-- Outcome of one `libc::nanosleep` call as `Delay::sleep` distinguishes
them (src/delay.rs:30-41): returned 0; failed with `EINTR` after writing
the remaining time into its out-parameter; or failed with another errno. -/
inductive NanosleepOutcome
  | success
  | interrupted (remaining : Timespec)
  | failed (errno : Nat)
deriving DecidableEq, Repr

/-- Result of running `Delay::sleep` against a finite list of `nanosleep`
outcomes: returned `Ok(())`, returned `Err` with the errno, or consumed
every supplied outcome and is about to request `nextRequest`. -/
inductive SleepResult
  | ok
  | err (errno : Nat)
  | sleeping (nextRequest : Timespec)
deriving DecidableEq, Repr

/-- `Delay::sleep` (src/delay.rs:26-44) run against a list of outcomes for
the successive `nanosleep` calls.  Returns the list of durations requested
from `nanosleep`, in order, and the result.  On success the loop returns
`Ok`; on `EINTR` the whole remaining time reported by the interrupted call
becomes the next request; on any other error the loop returns `Err`. -/
def sleepTrace : Timespec → List NanosleepOutcome → List Timespec × SleepResult
  | d, [] => ([], SleepResult.sleeping d)
  | d, NanosleepOutcome.success :: _ => ([d], SleepResult.ok)
  | d, NanosleepOutcome.failed e :: _ => ([d], SleepResult.err e)
  | d, NanosleepOutcome.interrupted rem :: rest =>
      let t := sleepTrace rem rest
      (d :: t.1, t.2)

/-! ### Wait-status translation and signal names (src/main.rs) -/

/-- glibc `WIFEXITED`: the low 7 status bits are zero. -/
def WIFEXITED (s : Nat) : Bool := s % 128 == 0

/-- glibc `WEXITSTATUS`: bits 8..15 of the status. -/
def WEXITSTATUS (s : Nat) : Nat := (s / 256) % 256

/-- glibc `WTERMSIG`: the low 7 status bits. -/
def WTERMSIG (s : Nat) : Nat := s % 128

/-- glibc `WIFSIGNALED`: `((signed char)(((s) & 0x7f) + 1) >> 1) > 0`,
which holds exactly when the low 7 bits are neither 0 (exited) nor 0x7f
(stopped). -/
def WIFSIGNALED (s : Nat) : Bool := decide (s % 128 ≠ 0 ∧ s % 128 ≠ 127)

/-- How `main` reacts to the reaped child's wait status: falls through
returning `Ok(())` (process exit code 0), or calls
`std::process::exit(code)`. -/
inductive ChildOutcome
  | success
  | exitWith (code : Int)
deriving DecidableEq, Repr

/-- The wait-status translation at the end of `main`
(src/main.rs:174-191): status 0 falls through as success; otherwise an
exited status propagates `WEXITSTATUS`, a signaled status propagates
`128 + WTERMSIG`, and any other shape exits with the sentinel `-1`. -/
def translateWaitStatus (s : Nat) : ChildOutcome :=
  if s = 0 then ChildOutcome.success
  else if WIFEXITED s then ChildOutcome.exitWith (WEXITSTATUS s)
  else if WIFSIGNALED s then ChildOutcome.exitWith (128 + (WTERMSIG s : Int))
  else ChildOutcome.exitWith (-1)

/-- Boolean test that `pat` is an initial segment of a character list. -/
def leadsWith : List Char → List Char → Bool
  | [], _ => true
  | _ :: _, [] => false
  | a :: as, b :: bs => a == b && leadsWith as bs

/-- Boolean substring containment on character lists, modelling Rust
`str::contains`. -/
def hasSub (needle : List Char) : List Char → Bool
  | [] => leadsWith needle []
  | c :: rest => leadsWith needle (c :: rest) || hasSub needle rest

/-- The first segment before the first occurrence of `sep` (the whole list
when `sep` never occurs), modelling `str::split(sep).next().unwrap()`. -/
def beforeSep (sep : List Char) : List Char → List Char
  | [] => []
  | c :: rest => if leadsWith sep (c :: rest) then [] else c :: beforeSep sep rest

/-- `signal_name(n)` (src/main.rs:28-50).  Strings are modelled as
character lists; `strsignalResult` is the platform's `strsignal(n)`
description, `none` for a NULL pointer.  NULL formats
`"Unknown signal {n}"`; a description containing `"Unknown"` is kept
verbatim; otherwise everything from the first `": "` onward is
stripped. -/
def signal_name (n : Int) (strsignalResult : Option (List Char)) : List Char :=
  match strsignalResult with
  | none => ("Unknown signal " ++ toString n).toList
  | some original =>
      if hasSub "Unknown".toList original then original
      else beforeSep ": ".toList original

/-! ### Helper lemmas -/

/-- OR-ing in a shifted-one mask sets the corresponding bit. -/
theorem testBit_or_shiftLeft_self (b k : Nat) : (b ||| (1 <<< k)).testBit k = true := by
  simp [Nat.testBit_or, Nat.shiftLeft_eq, Nat.testBit_two_pow_self]

/-- OR-ing in more bits preserves a set bit. -/
theorem testBit_or_mono {b k : Nat} (m : Nat) (h : b.testBit k = true) :
    (b ||| m).testBit k = true := by
  simp [Nat.testBit_or, h]

/-- Folding readiness masks over a list preserves a set bit. -/
theorem foldl_or_testBit_mono (evs : List MioEvent) :
    ∀ bits k, bits.testBit k = true →
      (evs.foldl (fun b ev => b ||| (1 <<< ev.token.val)) bits).testBit k = true := by
  induction evs with
  | nil => intro bits k h; exact h
  | cons a rest ih =>
      intro bits k h
      exact ih _ k (testBit_or_mono _ h)

/-- Folding readiness masks over a list sets the bit of every listed
event's token. -/
theorem foldl_or_testBit_mem (evs : List MioEvent) :
    ∀ bits : Nat, ∀ e ∈ evs,
      ((evs.foldl (fun b ev => b ||| (1 <<< ev.token.val)) bits).testBit e.token.val) = true := by
  induction evs with
  | nil => intro bits e he; cases he
  | cons a rest ih =>
      intro bits e he
      rcases List.mem_cons.mp he with rfl | h
      · exact foldl_or_testBit_mono rest _ _ (testBit_or_shiftLeft_self _ _)
      · exact ih _ e h

/-- With no terminal event in the list, `blockProcess` folds every mask in
and reports `Ok`. -/
theorem blockProcess_no_terminal (evs : List MioEvent) :
    ∀ bits : Nat, (∀ e ∈ evs, eventTerminal e = false) →
      blockProcess bits evs
        = (evs.foldl (fun b ev => b ||| (1 <<< ev.token.val)) bits, PollResult.ok) := by
  induction evs with
  | nil => intro bits _; rfl
  | cons a rest ih =>
      intro bits h
      have ha : eventTerminal a = false := h a (List.mem_cons_self a rest)
      simp only [blockProcess, ha, Bool.false_eq_true, if_false, List.foldl_cons]
      exact ih _ (fun e he => h e (List.mem_cons_of_mem a he))

/-- `blockProcess` reports `Closed` exactly when some event is terminal. -/
theorem blockProcess_closed_iff (evs : List MioEvent) :
    ∀ bits : Nat,
      ((blockProcess bits evs).2 = PollResult.closed ↔ ∃ e ∈ evs, eventTerminal e = true) := by
  induction evs with
  | nil =>
      intro bits
      simp [blockProcess]
  | cons a rest ih =>
      intro bits
      by_cases ha : eventTerminal a = true
      · simp [blockProcess, ha]
      · simp only [Bool.not_eq_true] at ha
        simp [blockProcess, ha, ih]

/-- Repeating `reset_tty` from the `Restored` state changes nothing,
performs no attribute-set call, and cannot abort. -/
theorem resetIter_restored (m : Nat) (t : Termios) :
    resetIter m ⟨t, true⟩ = (⟨t, true⟩, [], false) := by
  induction m with
  | zero => rfl
  | succ k ih => simp [resetIter, reset_tty, ih]

/-- A delay reassembled from `from_nanos` has exactly the requested total
nanoseconds. -/
theorem delayNanos_from_nanos (n : Int) : delayNanos (from_nanos n) = n := by
  simp only [delayNanos, from_nanos]
  rw [mul_comm]
  exact Int.tdiv_add_tmod n SEC_NS

/-! ### Claims -/

/-- C1: the terminal-restore operation is idempotent.  Starting from any
saved-settings state, a run of `n + 1` consecutive `reset_tty` calls
performs exactly one `tcsetattr(0, TCSANOW, _)` call, applying the saved
settings `t`, ends in the `Restored` state (`TERM_RESET = true`), and
never aborts; and a further call from the `Restored` state — even one
whose `tcsetattr` would fail — performs no attribute-set call, changes
nothing, and produces no error. -/
theorem reset_tty_idempotent (n : Nat) (t : Termios) (b : Bool) :
    resetIter (n + 1) ⟨t, false⟩ = (⟨t, true⟩, [t], false)
    ∧ reset_tty b ⟨t, true⟩ = (⟨t, true⟩, [], false) := by
  constructor
  · simp [resetIter, reset_tty, resetIter_restored n t]
  · simp [reset_tty]

/-- C9 counterexample: in the initial state, where terminal settings were
never saved, `set_raw` does not fail with a call-order violation; it
applies raw-mode attributes derived from the zero-initialized snapshot
buffer. -/
theorem set_raw_unsaved_no_failure :
    set_raw initialTermState = SetRawResult.applied (cfmakeraw zeroTermios)
    ∧ set_raw initialTermState ≠ SetRawResult.orderViolation := by
  constructor
  · rfl
  · intro h
    cases h

/-- C9 (amended): `set_raw` performs no saved-settings check and never
fails with a call-order violation: it always applies raw-mode attributes
derived (via `cfmakeraw`) from the current snapshot buffer — the saved
snapshot after `save_term_settings`, the zero-initialized buffer when
settings were never saved. -/
theorem set_raw_applies_snapshot (s : TermState) (c : Termios) :
    set_raw (save_term_settings c s) = SetRawResult.applied (cfmakeraw c)
    ∧ set_raw s = SetRawResult.applied (cfmakeraw s.originalTermSettings)
    ∧ set_raw initialTermState ≠ setRawSpecVersion none := by
  refine ⟨rfl, rfl, ?_⟩
  intro h
  cases h

/-- C8: `sleep()` requests the configured duration from `nanosleep` and
returns `Ok` when it completes; a non-interruption error is propagated to
the caller; and whenever a call is interrupted, the loop resumes as a
fresh sleep of exactly the remaining portion reported by the interrupted
call — the continuation is `sleepTrace rem os`, independent of the
originally configured duration, so the full duration is never
restarted. -/
theorem sleep_resumes_remaining (d rem : Timespec) (e : Nat) (os : List NanosleepOutcome) :
    sleepTrace d (NanosleepOutcome.success :: os) = ([d], SleepResult.ok)
    ∧ sleepTrace d (NanosleepOutcome.failed e :: os) = ([d], SleepResult.err e)
    ∧ sleepTrace d (NanosleepOutcome.interrupted rem :: os)
        = (d :: (sleepTrace rem os).1, (sleepTrace rem os).2) := by
  exact ⟨rfl, rfl, rfl⟩

/-- C2: for every set of events reported by a poll, `block` returns
`Closed` exactly when some reported event signals read-closed and not
readable (in particular a read-closed-but-still-readable event alone never
produces `Closed`); and when no event is terminal, `block` returns `Ready`
after setting the readiness bit of every reported event's endpoint. -/
theorem block_classification (bits : Nat) (evs : List MioEvent) :
    ((blockProcess bits evs).2 = PollResult.closed ↔
      ∃ e ∈ evs, e.isReadClosed = true ∧ e.isReadable = false)
    ∧ ((∀ e ∈ evs, ¬(e.isReadClosed = true ∧ e.isReadable = false)) →
        (blockProcess bits evs).2 = PollResult.ok
        ∧ ∀ e ∈ evs, ((blockProcess bits evs).1).testBit e.token.val = true) := by
  have hterm : ∀ e : MioEvent,
      (eventTerminal e = true) ↔ (e.isReadClosed = true ∧ e.isReadable = false) := by
    intro e
    simp [eventTerminal]
  constructor
  · rw [blockProcess_closed_iff evs bits]
    constructor
    · rintro ⟨e, he, h⟩
      exact ⟨e, he, (hterm e).mp h⟩
    · rintro ⟨e, he, h⟩
      exact ⟨e, he, (hterm e).mpr h⟩
  · intro h
    have hno : ∀ e ∈ evs, eventTerminal e = false := by
      intro e he
      have := h e he
      rw [← hterm e] at this
      simpa using this
    rw [blockProcess_no_terminal evs bits hno]
    exact ⟨rfl, fun e he => foldl_or_testBit_mem evs bits e he⟩

/-- C2 witness: a concrete poll reporting a readable console event and a
read-closed-but-still-readable pty event is not terminal — `block`
returns `Ready` and sets both readiness bits. -/
theorem block_classification_witness :
    (blockProcess 0 [⟨0, true, false⟩, ⟨1, true, true⟩]).2 = PollResult.ok
    ∧ ((blockProcess 0 [⟨0, true, false⟩, ⟨1, true, true⟩]).1).testBit 0 = true
    ∧ ((blockProcess 0 [⟨0, true, false⟩, ⟨1, true, true⟩]).1).testBit 1 = true := by
  have h := (block_classification 0 [⟨0, true, false⟩, ⟨1, true, true⟩]).2 (by decide)
  refine ⟨h.1, ?_, ?_⟩
  · exact h.2 ⟨0, true, false⟩ (by decide)
  · exact h.2 ⟨1, true, true⟩ (by decide)

/-- C3: classification of primary read results in the relay loop.  A
zero-byte read and an `EIO` read end the session cleanly (the iteration's
outcome is the `Ok(())` return, no error); any other read error is fatal
and terminates the loop carrying that error; a would-block read only
records the endpoint for readiness-bit clearing (no write, no session
end), and the recorded bits are cleared at the end of the iteration. -/
theorem read_result_classification (bits e : Nat) (rest0 src1 : List ReadResult) :
    (relayIteration bits (ReadResult.zero :: rest0) src1).outcome = IterOutcome.ended
    ∧ (relayIteration bits (ReadResult.errEio :: rest0) src1).outcome = IterOutcome.ended
    ∧ (relayIteration bits (ReadResult.errOther e :: rest0) src1).outcome = IterOutcome.failed e
    ∧ processEndpoint (ReadResult.wouldBlock :: rest0)
        = (EndpointOutcome.markUnset, [], rest0)
    ∧ (relayIteration bits [ReadResult.wouldBlock] [ReadResult.wouldBlock]).bits
        = unsetBit (unsetBit bits 0) 1 := by
  exact ⟨rfl, rfl, rfl, rfl, rfl⟩

/-- C4: escape coalescing.  A primary read of the ESC byte `0x1B`
followed by an immediately available second byte produces a single 2-byte
write of both bytes; when the immediate second read yields anything but
one byte — or nothing is there to read — the lone ESC is written as a
single 1-byte write. -/
theorem escape_coalescing (b2 : Nat) (rest : List ReadResult) (r2 : ReadResult)
    (h : ∀ b, r2 ≠ ReadResult.one b) :
    processEndpoint (ReadResult.one 0x1B :: ReadResult.one b2 :: rest)
      = (EndpointOutcome.relayed, [[0x1B, b2]], rest)
    ∧ processEndpoint (ReadResult.one 0x1B :: r2 :: rest)
      = (EndpointOutcome.relayed, [[0x1B]], rest)
    ∧ processEndpoint [ReadResult.one 0x1B]
      = (EndpointOutcome.relayed, [[0x1B]], []) := by
  refine ⟨rfl, ?_, rfl⟩
  cases r2 with
  | zero => rfl
  | one b => exact absurd rfl (h b)
  | wouldBlock => rfl
  | errEio => rfl
  | errOther e => rfl

/-- C4 witness: ESC followed by `[` (the CSI introducer) goes out as one
2-byte write; ESC with a would-blocking source behind it goes out as a
1-byte write. -/
theorem escape_coalescing_witness :
    processEndpoint [ReadResult.one 0x1B, ReadResult.one 0x5B]
      = (EndpointOutcome.relayed, [[0x1B, 0x5B]], [])
    ∧ processEndpoint [ReadResult.one 0x1B, ReadResult.wouldBlock]
      = (EndpointOutcome.relayed, [[0x1B]], []) :=
  ⟨(escape_coalescing 0x5B [] ReadResult.wouldBlock
      (fun _ h => ReadResult.noConfusion h)).1,
   (escape_coalescing 0x5B [] ReadResult.wouldBlock
      (fun _ h => ReadResult.noConfusion h)).2.1⟩

/-- C10: the optimistic second read after an ESC byte is never
session-affecting.  Whatever it yields short of a byte — end-of-stream,
would-block, `EIO`, or an error that would be fatal on a primary read —
the outcome is still a normal 1-byte relay of the lone ESC: the session
does not end, no error escapes, and the result is discarded.  By
contrast, the same results on a primary read end the session (`Ok(0)`,
`EIO`) or are fatal (other errors). -/
theorem second_read_never_terminal (e : Nat) (rest : List ReadResult) :
    processEndpoint (ReadResult.one 0x1B :: ReadResult.zero :: rest)
      = (EndpointOutcome.relayed, [[0x1B]], rest)
    ∧ processEndpoint (ReadResult.one 0x1B :: ReadResult.errEio :: rest)
      = (EndpointOutcome.relayed, [[0x1B]], rest)
    ∧ processEndpoint (ReadResult.one 0x1B :: ReadResult.errOther e :: rest)
      = (EndpointOutcome.relayed, [[0x1B]], rest)
    ∧ processEndpoint (ReadResult.one 0x1B :: ReadResult.wouldBlock :: rest)
      = (EndpointOutcome.relayed, [[0x1B]], rest)
    ∧ processEndpoint (ReadResult.zero :: rest) = (EndpointOutcome.endSession, [], rest)
    ∧ processEndpoint (ReadResult.errEio :: rest) = (EndpointOutcome.endSession, [], rest)
    ∧ processEndpoint (ReadResult.errOther e :: rest) = (EndpointOutcome.fatal e, [], rest) := by
  exact ⟨rfl, rfl, rfl, rfl, rfl, rfl, rfl⟩

/-- C5: an outer relay iteration that completes (outcome `next`, the
session neither ended nor failed) performs exactly one `delay.sleep()`
call, whatever the two sources delivered; an iteration that ends the
session or fails performs none. -/
theorem one_sleep_per_iteration (bits : Nat) (src0 src1 : List ReadResult) :
    ((relayIteration bits src0 src1).outcome = IterOutcome.next →
      (relayIteration bits src0 src1).sleeps = 1)
    ∧ ((relayIteration bits src0 src1).outcome ≠ IterOutcome.next →
      (relayIteration bits src0 src1).sleeps = 0) := by
  rcases h0 : processEndpoint src0 with ⟨o0, w0, rest0⟩
  rcases h1 : processEndpoint src1 with ⟨o1, w1, rest1⟩
  cases o0 <;> cases o1 <;> simp [relayIteration, h0, h1]

/-- C5 witness: one byte relayed in each direction within the same cycle
costs a single delay: the iteration completes and sleeps exactly once. -/
theorem one_sleep_per_iteration_witness :
    (relayIteration 3 [ReadResult.one 65] [ReadResult.one 66]).outcome = IterOutcome.next
    ∧ (relayIteration 3 [ReadResult.one 65] [ReadResult.one 66]).sleeps = 1 :=
  ⟨by decide,
   (one_sleep_per_iteration 3 [ReadResult.one 65] [ReadResult.one 66]).1 (by decide)⟩

/-- C6 counterexample: at rate 1/4 byte per second (0.25, exactly
representable in `f64`, with an exactly representable quotient 4·10⁹) the
claimed value `trunc(1e9 / r)` is 4000000000, but the `as i32` cast in
`from_rate` saturates, so the constructed delay is 2147483647
nanoseconds — the claim is false at r = 1/4. -/
theorem from_rate_saturates_low_rate :
    delayNanos (from_rate (1/4)) = 2147483647
    ∧ ratTrunc ((SEC_NS : ℚ) / (1/4)) = 4000000000
    ∧ delayNanos (from_rate (1/4)) ≠ ratTrunc ((SEC_NS : ℚ) / (1/4)) := by
  have hS : ((SEC_NS : ℚ)) = 1000000000 := by norm_num [SEC_NS]
  have hdiv : ((SEC_NS : ℚ)) / (1/4) = 4000000000 := by rw [hS]; norm_num
  have htr : ratTrunc ((SEC_NS : ℚ) / (1/4)) = 4000000000 := by
    rw [hdiv]
    simp only [ratTrunc]
    rw [if_pos (by norm_num : (0:ℚ) ≤ 4000000000)]
    norm_num
  have hf : f64AsI32 ((SEC_NS : ℚ) / (1/4)) = 2147483647 := by
    simp only [f64AsI32, htr, i32Max, i32Min]
    norm_num
  refine ⟨?_, htr, ?_⟩
  · simp only [from_rate, hf, delayNanos_from_nanos]
  · simp only [from_rate, hf, delayNanos_from_nanos, htr]
    decide

/-- C6 (amended): for every rate r > 0 whose truncated quotient
`trunc(1e9 / r)` fits in `i32`, the delay constructed by `from_rate r` is
exactly `trunc(1e9 / r)` nanoseconds; for larger quotients the `as i32`
cast saturates the value to `i32::MAX` = 2147483647 nanoseconds. -/
theorem from_rate_trunc_in_range (r : ℚ) (hr : 0 < r)
    (hb : ratTrunc ((SEC_NS : ℚ) / r) ≤ i32Max) :
    delayNanos (from_rate r) = ratTrunc ((SEC_NS : ℚ) / r) := by
  have hS : (0 : ℚ) ≤ (SEC_NS : ℚ) := by norm_num [SEC_NS]
  have hx : (0 : ℚ) ≤ (SEC_NS : ℚ) / r := div_nonneg hS (le_of_lt hr)
  have htr : ratTrunc ((SEC_NS : ℚ) / r) = ⌊(SEC_NS : ℚ) / r⌋ := by
    simp only [ratTrunc]
    exact if_pos hx
  have hnn : (0 : Int) ≤ ⌊(SEC_NS : ℚ) / r⌋ := Int.floor_nonneg.mpr hx
  have hb2 : ⌊(SEC_NS : ℚ) / r⌋ ≤ i32Max := by rw [← htr]; exact hb
  have h1 : max i32Min ⌊(SEC_NS : ℚ) / r⌋ = ⌊(SEC_NS : ℚ) / r⌋ := by
    apply max_eq_right
    simp only [i32Min]
    omega
  have h2 : min i32Max ⌊(SEC_NS : ℚ) / r⌋ = ⌊(SEC_NS : ℚ) / r⌋ := min_eq_right hb2
  simp only [from_rate, f64AsI32, htr, h1, h2, delayNanos_from_nanos]

/-- C6 witness: at 2 bytes per second the quotient 500000000 fits in
`i32` and the delay is exactly the truncated quotient. -/
theorem from_rate_trunc_in_range_witness :
    (0 : ℚ) < 2 ∧ delayNanos (from_rate 2) = ratTrunc ((SEC_NS : ℚ) / 2) :=
  ⟨by norm_num,
   from_rate_trunc_in_range 2 (by norm_num)
     (by norm_num [ratTrunc, SEC_NS, i32Max])⟩

/-- C7: translation of the child's wait status.  Status 0 is success; an
exited status with nonzero code C (encoded `C << 8`) exits with C; a
signaled status exits with 128 + the terminating signal; any other status
shape (neither exited nor signaled) exits with the sentinel -1.  A NULL
`strsignal` formats `"Unknown signal {n}"`; a description in the
"Unknown" form is kept verbatim; any other description is truncated at
the first `": "`. -/
theorem wait_status_translation (s c : Nat) (nIdx : Int) (desc : List Char)
    (hc1 : c ≤ 255) (hc2 : c ≠ 0)
    (hex : WIFEXITED s = false) (hsig : WIFSIGNALED s = false) (hnz : s ≠ 0) :
    translateWaitStatus 0 = ChildOutcome.success
    ∧ translateWaitStatus (c * 256) = ChildOutcome.exitWith (c : Int)
    ∧ (∀ t : Nat, WIFSIGNALED t = true →
        translateWaitStatus t = ChildOutcome.exitWith (128 + (WTERMSIG t : Int)))
    ∧ translateWaitStatus s = ChildOutcome.exitWith (-1)
    ∧ signal_name nIdx none = ("Unknown signal " ++ toString nIdx).toList
    ∧ (hasSub "Unknown".toList desc = true → signal_name nIdx (some desc) = desc)
    ∧ (hasSub "Unknown".toList desc = false →
        signal_name nIdx (some desc) = beforeSep ": ".toList desc)
    ∧ signal_name 9 (some "Killed: 9".toList) = "Killed".toList := by
  refine ⟨rfl, ?_, ?_, ?_, rfl, ?_, ?_, by decide⟩
  · have h256 : ¬(c * 256 = 0) := by omega
    have hmod : (c * 256) % 128 = 0 := by omega
    have hdiv : c * 256 / 256 % 256 = c := by omega
    simp [translateWaitStatus, WIFEXITED, WEXITSTATUS, h256, hmod, hdiv]
    omega
  · intro t ht
    simp only [WIFSIGNALED, decide_eq_true_eq] at ht
    have ht0 : ¬(t = 0) := by omega
    simp [translateWaitStatus, WIFEXITED, WIFSIGNALED, ht0, ht.1, ht.2]
  · simp [translateWaitStatus, hnz, hex, hsig]
  · intro h
    simp only [signal_name, h]
    simp
  · intro h
    simp only [signal_name, h]
    simp

/-- C7 witness: a child exiting with code 3 propagates 3; a status shape
that is neither exited nor signaled (low bits 0x7f) exits with the
sentinel -1. -/
theorem wait_status_translation_witness :
    translateWaitStatus (3 * 256) = ChildOutcome.exitWith 3
    ∧ translateWaitStatus 127 = ChildOutcome.exitWith (-1) := by
  have h := wait_status_translation 127 3 9 "Killed: 9".toList (by decide) (by decide)
      (by decide) (by decide) (by decide)
  exact ⟨h.2.1, h.2.2.2.1⟩

end SlowPty
